import Mathlib

/-!
Shallow embedding of the Volleyball-Coach-Hours-Register web application
(`app.py`) and proofs about its two-step submission workflow, notification
dispatcher, and admin report view.

The embedding models:
* Python `str.strip` as `pyStrip`;
* the sqlite database as a `Store` (two tables plus autoincrement counters),
  with a `Db` wrapper separating staged (uncommitted) inserts from the
  committed state, mirroring sqlite's implicit transaction that is only made
  durable by `db.commit()`;
* the `/basic` POST handler (`basic_info_post`), the `/certificates` handler
  (`certificates_handler`, which runs in `Except` so that an exception thrown
  by a callee would propagate), the email dispatcher (`send_email_notify`,
  whose SMTP interaction is a `transport : Except String Unit` parameter
  standing for the outcome of the `smtplib` calls), and the `/admin` view
  (`admin_handler`, with the two SQL queries modelled as sorts over the row
  lists).
-/

namespace VolleyballApp

/-- Python `str.strip()`: drop leading and trailing whitespace characters. -/
def pyStrip (s : String) : String :=
  String.mk (((s.data.dropWhile Char.isWhitespace).reverse.dropWhile
    Char.isWhitespace).reverse)

/-- A row of the `submissions` table. -/
structure SubmissionRow where
  id : Nat
  name : String
  school : String
  phone : String
  created_at : String
deriving DecidableEq

/-- A row of the `certificates` table. -/
structure CertificateRow where
  id : Nat
  submission_id : Nat
  coach_name : String
  coach_license : String
deriving DecidableEq

/-- The sqlite database contents: both tables in insertion order, plus the
next AUTOINCREMENT value for each table. -/
structure Store where
  submissions : List SubmissionRow
  certificates : List CertificateRow
  nextSubmissionId : Nat
  nextCertificateId : Nat
deriving DecidableEq

/-- One INSERT statement executed by the step-2 handler. -/
inductive DbOp
  | insertSubmission (name school phone created_at : String)
  | insertCertificate (submission_id : Nat) (coach_name coach_license : String)
deriving DecidableEq

/-- Effect of one INSERT on the committed store contents. -/
def applyOp (s : Store) : DbOp → Store
  | .insertSubmission n sc p t =>
      { s with
        submissions := s.submissions ++ [⟨s.nextSubmissionId, n, sc, p, t⟩]
        nextSubmissionId := s.nextSubmissionId + 1 }
  | .insertCertificate sid n c =>
      { s with
        certificates := s.certificates ++ [⟨s.nextCertificateId, sid, n, c⟩]
        nextCertificateId := s.nextCertificateId + 1 }

/-- Apply a list of INSERTs in order. -/
def applyOps (s : Store) (ops : List DbOp) : Store :=
  ops.foldl applyOp s

/-- A sqlite connection: the committed store plus the INSERTs staged inside
the currently open (implicit) transaction.  A crash before `commit` loses
`pending` and leaves `committed` untouched. -/
structure Db where
  committed : Store
  pending : List DbOp
deriving DecidableEq

/-- Model of `db.execute(INSERT ...)`: stages the row inside the open transaction. -/
def Db.execute (db : Db) (op : DbOp) : Db :=
  { db with pending := db.pending ++ [op] }

/-- Stage a list of INSERTs in order (`execute` + `executemany`). -/
def Db.stage (db : Db) (ops : List DbOp) : Db :=
  ops.foldl Db.execute db

/-- Model of `db.commit()`: makes all staged INSERTs durable. -/
def Db.commit (db : Db) : Db :=
  ⟨applyOps db.committed db.pending, []⟩

/-- The staged contact info held in `session["basic_info"]`. -/
structure BasicInfo where
  name : String
  school : String
  phone : String
deriving DecidableEq

/-- The per-client session: `none` when `basic_info` is absent. -/
abbrev Session := Option BasicInfo

/-- The raw values of the step-1 POST form. -/
structure BasicForm where
  name : String
  school : String
  phone : String
deriving DecidableEq

/-- What the step-1 handler answers to the client. -/
inductive BasicRender
  | formError (error : String) (form : BasicForm)
  | redirectCertificates
deriving DecidableEq

/-- The `/basic` POST handler: trim the three fields, re-render with the raw
form on any empty field, otherwise stage the trimmed triple in the session
and redirect to `/certificates`. -/
def basic_info_post (form : BasicForm) (sess : Session) :
    BasicRender × Session :=
  let name := pyStrip form.name
  let school := pyStrip form.school
  let phone := pyStrip form.phone
  if name = "" ∨ school = "" ∨ phone = "" then
    (.formError "請填寫完整基本資料。" form, sess)
  else
    (.redirectCertificates, some ⟨name, school, phone⟩)

/-- Zip the two form field lists, trim both components of every pair, keep a
pair only when both components are non-empty after trimming. -/
def filterPairs (coach_names coach_licenses : List String) :
    List (String × String) :=
  (coach_names.zip coach_licenses).filterMap fun p =>
    let n := pyStrip p.1
    let c := pyStrip p.2
    if n ≠ "" ∧ c ≠ "" then some (n, c) else none

/-- The lines of the notification email body built by the step-2 handler. -/
def bodyLines (basic : BasicInfo) (pairs : List (String × String))
    (now : String) : List String :=
  ["🏐 教練證資料已送出",
   "填寫人：" ++ basic.name,
   "學校：" ++ basic.school,
   "電話：" ++ basic.phone,
   "",
   "教練與證號："]
  ++ pairs.map (fun p => "- " ++ p.1 ++ "：" ++ p.2)
  ++ ["", "送出時間：" ++ now]

/-- The notification email body (`"\n".join(lines)`). -/
def buildBody (basic : BasicInfo) (pairs : List (String × String))
    (now : String) : String :=
  String.intercalate "\n" (bodyLines basic pairs now)

/-- Email transport configuration (the `Settings` object). -/
structure EmailSettings where
  smtp_server : String
  smtp_port : Nat
  username : String
  password : String
  to_addr : String
deriving DecidableEq

/-- What `send_email_notify` printed/did. -/
inductive NotifyLog
  | configMissing (subject body : String)
  | sent
  | failed (err body : String)
deriving DecidableEq

/-- The body of the `try:` block: `starttls`, `login`, `send_message` — any
of these may raise; the outcome is the `transport` parameter. -/
def smtpDeliver (transport : Except String Unit) : Except String Unit := do
  let _ ← transport
  pure ()

/-- Model of `send_email_notify(subject, body)`: if the email configuration is
incomplete, print the intended message and return; otherwise attempt SMTP
delivery inside a `try`, catching every exception and printing the failure
plus the original body. -/
def send_email_notify (cfg : EmailSettings) (transport : Except String Unit)
    (subject body : String) : Except String NotifyLog :=
  if cfg.username = "" ∨ cfg.password = "" ∨ cfg.to_addr = "" then
    Except.ok (NotifyLog.configMissing subject body)
  else
    match smtpDeliver transport with
    | Except.ok _ => Except.ok NotifyLog.sent
    | Except.error e => Except.ok (NotifyLog.failed e body)

/-- HTTP method of a request to `/certificates`. -/
inductive HttpMethod
  | get
  | post
deriving DecidableEq

/-- What the step-2 handler answers to the client. -/
inductive CertRender
  | redirectBasicInfo
  | certificatesError (error : String) (basic : BasicInfo)
  | certificatesForm (basic : BasicInfo)
  | complete
deriving DecidableEq

/-- The raw values of the step-2 POST form
(`request.form.getlist("coach_name")` / `getlist("coach_license")`). -/
structure CertForm where
  coach_names : List String
  coach_licenses : List String
deriving DecidableEq

/-- Observable side-effect events of the step-2 handler, in order. -/
inductive Event
  | commitTxn
  | notifyCall (subject body : String)
deriving DecidableEq

/-- Complete outcome of one request to `/certificates`. -/
structure Step2Result where
  render : CertRender
  store : Store
  session : Session
  events : List Event
  log : Option NotifyLog
deriving DecidableEq

/-- The INSERTs issued by a successful step-2 POST: one submission row, then
one certificate row per surviving pair, all referencing `sid`. -/
def step2Ops (basic : BasicInfo) (pairs : List (String × String))
    (now : String) (sid : Nat) : List DbOp :=
  DbOp.insertSubmission basic.name basic.school basic.phone now ::
    pairs.map fun p => DbOp.insertCertificate sid p.1 p.2

/-- The `/certificates` handler.  Redirects when no staged info exists;
renders the form on GET; on POST filters the pairs, re-renders on zero
survivors, otherwise stages the INSERTs, commits once, sends the best-effort
notification (whose exception, if any, would propagate through the `Except`
bind) and clears the staged info. -/
def certificates_handler (method : HttpMethod) (form : CertForm)
    (now : String) (cfg : EmailSettings) (transport : Except String Unit)
    (sess : Session) (store : Store) : Except String Step2Result := do
  match sess with
  | none => pure ⟨.redirectBasicInfo, store, none, [], none⟩
  | some basic =>
    match method with
    | .get => pure ⟨.certificatesForm basic, store, some basic, [], none⟩
    | .post =>
      let pairs := filterPairs form.coach_names form.coach_licenses
      if pairs = [] then
        pure ⟨.certificatesError "請至少填寫一筆教練姓名與教練證號。" basic,
          store, some basic, [], none⟩
      else
        let db : Db := ⟨store, []⟩
        let submission_id := store.nextSubmissionId
        let db := db.stage (step2Ops basic pairs now submission_id)
        let db := db.commit
        let body := buildBody basic pairs now
        let log ← send_email_notify cfg transport "教練證資料已送出" body
        pure ⟨.complete, db.committed, none,
          [.commitTxn, .notifyCall "教練證資料已送出" body], some log⟩

/-- The certificates of one submission, in table (insertion) order
(`WHERE c.submission_id = s.id`). -/
def certsOf (store : Store) (sid : Nat) : List CertificateRow :=
  store.certificates.filter fun c => c.submission_id = sid

/-- Relation for `ORDER BY s.created_at DESC`: row `a` may precede row `b` when `b`'s
timestamp is at most `a`'s. -/
def subDesc (a b : SubmissionRow) : Prop :=
  b.created_at ≤ a.created_at

instance : DecidableRel subDesc := fun a b => by
  unfold subDesc; infer_instance

instance : IsTotal SubmissionRow subDesc :=
  ⟨fun a b => (le_total a.created_at b.created_at).symm⟩

instance : IsTrans SubmissionRow subDesc :=
  ⟨fun _ _ _ h h' => le_trans h' h⟩

/-- One row of the admin detail query (submission id, certificate id, coach
name, coach license). -/
structure JoinRow where
  sid : Nat
  cid : Nat
  coach_name : String
  coach_license : String
deriving DecidableEq

/-- Relation for `ORDER BY s.id, c.id`: lexicographic order on (submission id,
certificate id). -/
def rowLe (a b : JoinRow) : Prop :=
  a.sid < b.sid ∨ (a.sid = b.sid ∧ a.cid ≤ b.cid)

instance : DecidableRel rowLe := fun a b => by
  unfold rowLe; infer_instance

/-- The detail-query rows contributed by one submission: its certificates
in table order. -/
def blockOf (store : Store) (s : SubmissionRow) : List JoinRow :=
  (certsOf store s.id).map fun c =>
    ⟨s.id, c.id, c.coach_name, c.coach_license⟩

/-- The rows of the admin detail query: the join of `submissions` and
`certificates` on `c.submission_id = s.id`, sorted by `(s.id, c.id)`. -/
def joinRows (store : Store) : List JoinRow :=
  List.insertionSort rowLe (store.submissions.flatMap (blockOf store))

/-- One step of building the Python `details` dict:
`details.setdefault(sid, []).append(row)` — append to the bucket of
`r.sid` when it exists, otherwise add a fresh bucket at the end (Python
dicts keep key insertion order). -/
def detStep (acc : List (Nat × List (String × String))) (r : JoinRow) :
    List (Nat × List (String × String)) :=
  if acc.any (fun g => g.1 = r.sid) then
    acc.map fun g =>
      if g.1 = r.sid then (g.1, g.2 ++ [(r.coach_name, r.coach_license)])
      else g
  else acc ++ [(r.sid, [(r.coach_name, r.coach_license)])]

/-- The Python `details` dict built row by row: an association list in key
first-appearance order, each bucket in row order. -/
def buildDetails (rows : List JoinRow) :
    List (Nat × List (String × String)) :=
  rows.foldl detStep []

/-- Look a submission id up in the `details` dict (empty when absent). -/
def detailsGet (details : List (Nat × List (String × String))) (sid : Nat) :
    List (String × String) :=
  ((details.find? fun g => g.1 = sid).map (fun g => g.2)).getD []

/-- One row of the admin summary query (`LEFT JOIN` + `GROUP BY s.id` with
`COUNT(c.id)`). -/
structure AdminSubRow where
  id : Nat
  name : String
  school : String
  phone : String
  created_at : String
  coach_count : Nat
deriving DecidableEq

/-- Build the admin summary row of one submission. -/
def mkAdminRow (store : Store) (s : SubmissionRow) : AdminSubRow :=
  ⟨s.id, s.name, s.school, s.phone, s.created_at, (certsOf store s.id).length⟩

/-- Everything the admin template receives. -/
structure AdminReport where
  submissions : List AdminSubRow
  details : List (Nat × List (String × String))
  total_submissions : Nat
  total_certificates : Nat
deriving DecidableEq

/-- What the `/admin` view answers. -/
inductive AdminResult
  | forbidden
  | report (key : String) (r : AdminReport)
deriving DecidableEq

/-- The `/admin` view: plain string equality against the configured key
(`request.args.get("key", "")`), 403 on mismatch, otherwise the two
read-only queries; the store and session are returned untouched. -/
def admin_handler (admin_key : String) (keyArg : Option String)
    (store : Store) (sess : Session) : AdminResult × Store × Session :=
  let key := keyArg.getD ""
  if key ≠ admin_key then (.forbidden, store, sess)
  else
    let subRows :=
      (List.insertionSort subDesc store.submissions).map (mkAdminRow store)
    (.report key
      ⟨subRows, buildDetails (joinRows store), subRows.length,
        store.certificates.length⟩,
      store, sess)

/-- Well-formed store: row ids strictly increase in table order (sqlite
AUTOINCREMENT), and every id is below the table's next AUTOINCREMENT
value.  Every store reachable from the empty store is well formed. -/
def Store.wf (s : Store) : Prop :=
  s.submissions.Pairwise (fun a b => a.id < b.id) ∧
  s.certificates.Pairwise (fun a b => a.id < b.id) ∧
  (∀ r ∈ s.submissions, r.id < s.nextSubmissionId) ∧
  (∀ c ∈ s.certificates, c.id < s.nextCertificateId)

/-- The certificate rows inserted for a pair list, with ids counting up from
`startId`, all owned by submission `sid`. -/
def certRows (startId sid : Nat) : List (String × String) → List CertificateRow
  | [] => []
  | p :: rest => ⟨startId, sid, p.1, p.2⟩ :: certRows (startId + 1) sid rest

/-- The store produced by committing a successful step-2 transaction. -/
def step2Store (store : Store) (basic : BasicInfo)
    (pairs : List (String × String)) (now : String) : Store :=
  ⟨store.submissions ++
      [⟨store.nextSubmissionId, basic.name, basic.school, basic.phone, now⟩],
    store.certificates ++
      certRows store.nextCertificateId store.nextSubmissionId pairs,
    store.nextSubmissionId + 1,
    store.nextCertificateId + pairs.length⟩

/-- The value `send_email_notify` wraps in `Except.ok`. -/
def notifyResult (cfg : EmailSettings) (transport : Except String Unit)
    (subject body : String) : NotifyLog :=
  if cfg.username = "" ∨ cfg.password = "" ∨ cfg.to_addr = "" then
    NotifyLog.configMissing subject body
  else
    match transport with
    | Except.ok _ => NotifyLog.sent
    | Except.error e => NotifyLog.failed e body

/-- Holds when every notification event in the trace is preceded by a
commit event. -/
def commitPrecedes (seen : Bool) : List Event → Bool
  | [] => true
  | Event.commitTxn :: rest => commitPrecedes true rest
  | Event.notifyCall _ _ :: rest => seen && commitPrecedes seen rest

/-! Helper lemmas -/

theorem certRows_length (sid : Nat) (ps : List (String × String)) :
    ∀ startId, (certRows startId sid ps).length = ps.length := by
  induction ps with
  | nil => intro k; rfl
  | cons p rest ih => intro k; simp [certRows, ih]

theorem certRows_map_pair (sid : Nat) (ps : List (String × String)) :
    ∀ startId,
      (certRows startId sid ps).map (fun c => (c.coach_name, c.coach_license))
        = ps := by
  induction ps with
  | nil => intro k; rfl
  | cons p rest ih => intro k; simp [certRows, ih]

theorem certRows_sid (sid : Nat) (ps : List (String × String)) :
    ∀ startId, ∀ c ∈ certRows startId sid ps, c.submission_id = sid := by
  induction ps with
  | nil => intro k c hc; cases hc
  | cons p rest ih =>
    intro k c hc
    rcases List.mem_cons.mp hc with hc | hc
    · subst hc; rfl
    · exact ih (k + 1) c hc

theorem Db.stage_committed (ops : List DbOp) :
    ∀ db : Db, (db.stage ops).committed = db.committed := by
  induction ops with
  | nil => intro db; rfl
  | cons op rest ih => intro db; exact ih (db.execute op)

theorem Db.stage_pending (ops : List DbOp) :
    ∀ db : Db, (db.stage ops).pending = db.pending ++ ops := by
  induction ops with
  | nil => intro db; exact (List.append_nil _).symm
  | cons op rest ih =>
    intro db
    show (Db.stage (db.execute op) rest).pending = _
    rw [ih (db.execute op)]
    simp [Db.execute]

theorem applyOps_insertCerts (sid : Nat) (ps : List (String × String)) :
    ∀ s : Store,
      applyOps s (ps.map fun p => DbOp.insertCertificate sid p.1 p.2) =
        { s with
          certificates :=
            s.certificates ++ certRows s.nextCertificateId sid ps
          nextCertificateId := s.nextCertificateId + ps.length } := by
  induction ps with
  | nil => intro s; simp [applyOps, certRows]
  | cons p rest ih =>
    intro s
    have h := ih (applyOp s (DbOp.insertCertificate sid p.1 p.2))
    simp [applyOps] at h ⊢
    rw [h]
    simp [applyOp, certRows]
    omega

theorem applyOps_step2Ops (store : Store) (basic : BasicInfo)
    (pairs : List (String × String)) (now : String) :
    applyOps store (step2Ops basic pairs now store.nextSubmissionId) =
      step2Store store basic pairs now := by
  have h := applyOps_insertCerts store.nextSubmissionId pairs
    (applyOp store
      (DbOp.insertSubmission basic.name basic.school basic.phone now))
  simp [applyOps, step2Ops] at h ⊢
  rw [h]
  simp [applyOp, step2Store]

theorem send_email_notify_eq (cfg : EmailSettings)
    (transport : Except String Unit) (subject body : String) :
    send_email_notify cfg transport subject body =
      Except.ok (notifyResult cfg transport subject body) := by
  unfold send_email_notify notifyResult smtpDeliver
  cases transport <;> split <;> rfl

theorem certificates_handler_none (method : HttpMethod) (form : CertForm)
    (now : String) (cfg : EmailSettings) (transport : Except String Unit)
    (store : Store) :
    certificates_handler method form now cfg transport none store =
      Except.ok ⟨.redirectBasicInfo, store, none, [], none⟩ := rfl

theorem certificates_handler_get (form : CertForm) (now : String)
    (cfg : EmailSettings) (transport : Except String Unit)
    (basic : BasicInfo) (store : Store) :
    certificates_handler .get form now cfg transport (some basic) store =
      Except.ok ⟨.certificatesForm basic, store, some basic, [], none⟩ := rfl

theorem certificates_handler_post_empty (form : CertForm) (now : String)
    (cfg : EmailSettings) (transport : Except String Unit)
    (basic : BasicInfo) (store : Store)
    (h : filterPairs form.coach_names form.coach_licenses = []) :
    certificates_handler .post form now cfg transport (some basic) store =
      Except.ok ⟨.certificatesError "請至少填寫一筆教練姓名與教練證號。" basic,
        store, some basic, [], none⟩ := by
  unfold certificates_handler
  simp [h]
  rfl

theorem certificates_handler_post_success (form : CertForm) (now : String)
    (cfg : EmailSettings) (transport : Except String Unit)
    (basic : BasicInfo) (store : Store)
    (h : filterPairs form.coach_names form.coach_licenses ≠ []) :
    certificates_handler .post form now cfg transport (some basic) store =
      Except.ok
        ⟨.complete,
          step2Store store basic
            (filterPairs form.coach_names form.coach_licenses) now,
          none,
          [.commitTxn,
           .notifyCall "教練證資料已送出"
             (buildBody basic
               (filterPairs form.coach_names form.coach_licenses) now)],
          some (notifyResult cfg transport "教練證資料已送出"
            (buildBody basic
              (filterPairs form.coach_names form.coach_licenses) now))⟩ := by
  have hdb : (Db.stage ⟨store, []⟩
      (step2Ops basic (filterPairs form.coach_names form.coach_licenses) now
        store.nextSubmissionId)).commit.committed =
      step2Store store basic
        (filterPairs form.coach_names form.coach_licenses) now := by
    show applyOps
      (Db.stage ⟨store, []⟩ _).committed (Db.stage ⟨store, []⟩ _).pending = _
    rw [Db.stage_committed, Db.stage_pending]
    simpa using applyOps_step2Ops store basic _ now
  unfold certificates_handler
  simp [h, send_email_notify_eq, hdb, Except.bind, pure, Except.pure]
  rfl

theorem certificates_handler_congr (f1 f2 : CertForm)
    (hf : filterPairs f1.coach_names f1.coach_licenses =
      filterPairs f2.coach_names f2.coach_licenses)
    (method : HttpMethod) (now : String) (cfg : EmailSettings)
    (transport : Except String Unit) (sess : Session) (store : Store) :
    certificates_handler method f1 now cfg transport sess store =
      certificates_handler method f2 now cfg transport sess store := by
  cases sess with
  | none => rfl
  | some basic =>
    cases method with
    | get => rfl
    | post =>
      unfold certificates_handler
      simp only [hf]

theorem blockOf_sid (store : Store) (s : SubmissionRow) :
    ∀ x ∈ blockOf store s, x.sid = s.id := by
  intro x hx
  simp only [blockOf, List.mem_map] at hx
  obtain ⟨c, _, rfl⟩ := hx
  rfl

theorem blockOf_entries (store : Store) (s : SubmissionRow) :
    (blockOf store s).map (fun r => (r.coach_name, r.coach_license)) =
      (certsOf store s.id).map fun c => (c.coach_name, c.coach_license) := by
  simp only [blockOf, List.map_map]
  rfl

theorem map_detStep_of_fresh (k : Nat) (e : String × String)
    (acc : List (Nat × List (String × String)))
    (hk : k ∉ acc.map Prod.fst) :
    (acc.map fun g => if g.1 = k then (g.1, g.2 ++ [e]) else g) = acc := by
  induction acc with
  | nil => rfl
  | cons a rest ih =>
    simp only [List.map_cons, List.mem_cons, not_or] at hk ⊢
    rw [if_neg (fun h => hk.1 h.symm), ih hk.2]

theorem any_eq_false_of_fresh (k : Nat)
    (acc : List (Nat × List (String × String)))
    (hk : k ∉ acc.map Prod.fst) :
    (acc.any fun g => decide (g.1 = k)) = false := by
  rw [List.any_eq_false]
  intro x hx
  simp only [decide_eq_true_eq]
  intro heq
  exact hk (List.mem_map.mpr ⟨x, hx, heq⟩)

theorem detStep_block_rest (k : Nat) (rs : List JoinRow) :
    ∀ (acc : List (Nat × List (String × String)))
      (part : List (String × String)),
      k ∉ acc.map Prod.fst → (∀ r ∈ rs, r.sid = k) →
      rs.foldl detStep (acc ++ [(k, part)]) =
        acc ++ [(k, part ++
          rs.map fun r => (r.coach_name, r.coach_license))] := by
  induction rs with
  | nil => intro acc part _ _; simp
  | cons r rest ih =>
    intro acc part hk hall
    have hr : r.sid = k := hall r (List.mem_cons_self r rest)
    have hstep : detStep (acc ++ [(k, part)]) r =
        acc ++ [(k, part ++ [(r.coach_name, r.coach_license)])] := by
      unfold detStep
      simp only [hr]
      rw [if_pos (by simp)]
      rw [List.map_append, map_detStep_of_fresh k _ acc hk]
      simp
    show List.foldl detStep (detStep (acc ++ [(k, part)]) r) rest = _
    rw [hstep, ih acc (part ++ [(r.coach_name, r.coach_license)]) hk
      (fun r' hr' => hall r' (List.mem_cons_of_mem r hr'))]
    simp

theorem detStep_block (k : Nat) (rs : List JoinRow)
    (acc : List (Nat × List (String × String)))
    (hk : k ∉ acc.map Prod.fst) (hall : ∀ r ∈ rs, r.sid = k) :
    rs.foldl detStep acc =
      if rs = [] then acc
      else acc ++ [(k, rs.map fun r => (r.coach_name, r.coach_license))] := by
  cases rs with
  | nil => rfl
  | cons r rest =>
    rw [if_neg (List.cons_ne_nil r rest)]
    have hr : r.sid = k := hall r (List.mem_cons_self r rest)
    have hstep : detStep acc r =
        acc ++ [(k, [(r.coach_name, r.coach_license)])] := by
      unfold detStep
      simp only [hr]
      rw [if_neg (by rw [any_eq_false_of_fresh k acc hk]; simp)]
    show List.foldl detStep (detStep acc r) rest = _
    rw [hstep, detStep_block_rest k rest acc
      [(r.coach_name, r.coach_license)] hk
      (fun r' hr' => hall r' (List.mem_cons_of_mem r hr'))]
    simp

theorem detStep_flatMap (store : Store) (subs : List SubmissionRow) :
    ∀ acc : List (Nat × List (String × String)),
      (∀ s ∈ subs, s.id ∉ acc.map Prod.fst) →
      subs.Pairwise (fun a b => a.id < b.id) →
      (subs.flatMap (blockOf store)).foldl detStep acc =
        acc ++ (subs.filter fun s => !(certsOf store s.id).isEmpty).map
          (fun s => (s.id, (certsOf store s.id).map
            fun c => (c.coach_name, c.coach_license))) := by
  induction subs with
  | nil => intro acc _ _; simp
  | cons s rest ih =>
    intro acc hfresh hpw
    obtain ⟨hhead, htail⟩ := List.pairwise_cons.mp hpw
    rw [List.flatMap_cons, List.foldl_append]
    rw [detStep_block s.id (blockOf store s) acc
      (hfresh s (List.mem_cons_self s rest)) (blockOf_sid store s)]
    by_cases hb : blockOf store s = []
    · have hempty : (certsOf store s.id).isEmpty = true := by
        unfold blockOf at hb
        simp only [List.map_eq_nil_iff] at hb
        simp [hb]
      rw [if_pos hb,
        ih acc (fun s' hs' => hfresh s' (List.mem_cons_of_mem s hs'))
          htail]
      rw [List.filter_cons_of_neg (by simp [hempty])]
    · have hne : (certsOf store s.id).isEmpty = false := by
        unfold blockOf at hb
        simp only [ne_eq, List.map_eq_nil_iff] at hb
        simp [hb]
      rw [if_neg hb]
      have hfresh2 : ∀ s' ∈ rest, s'.id ∉
          (acc ++ [(s.id, (blockOf store s).map
            fun r => (r.coach_name, r.coach_license))]).map Prod.fst := by
        intro s' hs'
        simp only [List.map_append, List.mem_append, List.map_cons,
          List.mem_cons, not_or]
        refine ⟨hfresh s' (List.mem_cons_of_mem s hs'), ?_, ?_⟩
        · exact Nat.ne_of_gt (hhead s' hs')
        · simp
      rw [ih _ hfresh2 htail]
      rw [List.filter_cons_of_pos (by simp [hne])]
      simp [blockOf_entries]

theorem joinRows_eq (store : Store) (hwf : store.wf) :
    joinRows store = store.submissions.flatMap (blockOf store) := by
  unfold joinRows
  apply List.Sorted.insertionSort_eq
  show List.Pairwise rowLe _
  rw [List.pairwise_flatMap]
  constructor
  · intro s _
    have hc : (certsOf store s.id).Pairwise (fun a b => a.id < b.id) :=
      List.Pairwise.filter _ hwf.2.1
    exact List.Pairwise.map _
      (fun a b hab => Or.inr ⟨rfl, Nat.le_of_lt hab⟩) hc
  · refine hwf.1.imp ?_
    intro a b hab x hx y hy
    exact Or.inl (by
      rw [blockOf_sid store a x hx, blockOf_sid store b y hy]; exact hab)

theorem find?_mapped_none (store : Store) (sid : Nat)
    (subs : List SubmissionRow) (h : ∀ s ∈ subs, s.id ≠ sid) :
    List.find? (fun g => g.1 = sid)
      ((subs.filter fun s => !(certsOf store s.id).isEmpty).map
        (fun s => (s.id, (certsOf store s.id).map
          fun c => (c.coach_name, c.coach_license)))) = none := by
  rw [List.find?_eq_none]
  intro x hx
  simp only [List.mem_map, List.mem_filter] at hx
  obtain ⟨s, ⟨hs, _⟩, rfl⟩ := hx
  simp [h s hs]

theorem detailsGet_mapped (store : Store) (subs : List SubmissionRow) :
    subs.Pairwise (fun a b => a.id < b.id) →
    ∀ s ∈ subs,
      detailsGet ((subs.filter fun s' => !(certsOf store s'.id).isEmpty).map
        (fun s' => (s'.id, (certsOf store s'.id).map
          fun c => (c.coach_name, c.coach_license)))) s.id =
        (certsOf store s.id).map fun c => (c.coach_name, c.coach_license) := by
  induction subs with
  | nil => intro _ s hs; cases hs
  | cons a rest ih =>
    intro hpw s hs
    obtain ⟨hhead, htail⟩ := List.pairwise_cons.mp hpw
    rcases List.mem_cons.mp hs with rfl | hs'
    · by_cases he : (certsOf store s.id).isEmpty = true
      · rw [List.filter_cons_of_neg (by simp [he])]
        unfold detailsGet
        rw [find?_mapped_none store s.id rest
          (fun s' h => Nat.ne_of_gt (hhead s' h))]
        simp [List.isEmpty_iff.mp he]
      · rw [List.filter_cons_of_pos (by simp at he ⊢; simp [he])]
        unfold detailsGet
        rw [List.map_cons, List.find?_cons_of_pos _ (by simp)]
        rfl
    · have hne : a.id ≠ s.id := Nat.ne_of_lt (hhead s hs')
      have hrest := ih htail s hs'
      unfold detailsGet at hrest ⊢
      by_cases he : (certsOf store a.id).isEmpty = true
      · rw [List.filter_cons_of_neg (by simp [he])]
        exact hrest
      · rw [List.filter_cons_of_pos (by simp at he ⊢; simp [he])]
        rw [List.map_cons, List.find?_cons_of_neg _ (by simp [hne])]
        exact hrest

/-! Claim theorems -/

/-- C1: a successful step-2 submission persists exactly one new Submission
row (holding the staged name, school, phone and the creation timestamp) and
exactly N new Certificate rows for the N surviving pairs, all referencing
the new Submission's identifier, with a single commit; any crash before the
commit leaves the committed store unchanged. -/
theorem step2_atomic_persistence (form : CertForm) (now : String)
    (cfg : EmailSettings) (transport : Except String Unit)
    (basic : BasicInfo) (store : Store)
    (h : filterPairs form.coach_names form.coach_licenses ≠ []) :
    ∃ r, certificates_handler .post form now cfg transport
        (some basic) store = Except.ok r ∧
      r.store.submissions = store.submissions ++
        [⟨store.nextSubmissionId, basic.name, basic.school, basic.phone,
          now⟩] ∧
      r.store.certificates = store.certificates ++
        certRows store.nextCertificateId store.nextSubmissionId
          (filterPairs form.coach_names form.coach_licenses) ∧
      (certRows store.nextCertificateId store.nextSubmissionId
        (filterPairs form.coach_names form.coach_licenses)).length =
        (filterPairs form.coach_names form.coach_licenses).length ∧
      (∀ c ∈ certRows store.nextCertificateId store.nextSubmissionId
          (filterPairs form.coach_names form.coach_licenses),
        c.submission_id = store.nextSubmissionId) ∧
      r.events = [.commitTxn,
        .notifyCall "教練證資料已送出"
          (buildBody basic
            (filterPairs form.coach_names form.coach_licenses) now)] ∧
      ∀ k, (Db.stage ⟨store, []⟩
        ((step2Ops basic (filterPairs form.coach_names form.coach_licenses)
          now store.nextSubmissionId).take k)).committed = store := by
  refine ⟨_, certificates_handler_post_success form now cfg transport basic
    store h, ?_, ?_, ?_, ?_, ?_, ?_⟩
  · rfl
  · rfl
  · exact certRows_length _ _ _
  · exact certRows_sid _ _ _
  · rfl
  · intro k
    exact Db.stage_committed _ ⟨store, []⟩

/-- C2: the notification dispatcher never throws outward — with missing
configuration or a failing transport it returns normally — so the step-2
handler never raises because of it, its response does not depend on the
transport outcome, and the committed Submission/Certificate rows are
present afterward even when the transport fails. -/
theorem notify_never_raises (cfg : EmailSettings) (subject body : String)
    (method : HttpMethod) (form : CertForm) (now : String) (sess : Session)
    (store : Store) :
    (∀ transport, ∃ log,
      send_email_notify cfg transport subject body = Except.ok log) ∧
    (∀ transport, ∃ r r',
      certificates_handler method form now cfg transport sess store =
        Except.ok r ∧
      certificates_handler method form now cfg (Except.ok ()) sess store =
        Except.ok r' ∧
      r.render = r'.render ∧ r.store = r'.store ∧ r.session = r'.session ∧
      r.events = r'.events) ∧
    (∀ transport basic,
      filterPairs form.coach_names form.coach_licenses ≠ [] →
      ∃ r, certificates_handler .post form now cfg transport
          (some basic) store = Except.ok r ∧
        r.store.submissions = store.submissions ++
          [⟨store.nextSubmissionId, basic.name, basic.school, basic.phone,
            now⟩] ∧
        r.store.certificates = store.certificates ++
          certRows store.nextCertificateId store.nextSubmissionId
            (filterPairs form.coach_names form.coach_licenses)) := by
  refine ⟨fun transport => ⟨_, send_email_notify_eq cfg transport subject
    body⟩, ?_, ?_⟩
  · intro transport
    cases sess with
    | none =>
      exact ⟨_, _, certificates_handler_none _ _ _ _ _ _,
        certificates_handler_none _ _ _ _ _ _, rfl, rfl, rfl, rfl⟩
    | some basic =>
      cases method with
      | get =>
        exact ⟨_, _, certificates_handler_get _ _ _ _ _ _,
          certificates_handler_get _ _ _ _ _ _, rfl, rfl, rfl, rfl⟩
      | post =>
        by_cases hp : filterPairs form.coach_names form.coach_licenses = []
        · exact ⟨_, _, certificates_handler_post_empty _ _ _ _ _ _ hp,
            certificates_handler_post_empty _ _ _ _ _ _ hp, rfl, rfl, rfl,
            rfl⟩
        · exact ⟨_, _, certificates_handler_post_success _ _ _ _ _ _ hp,
            certificates_handler_post_success _ _ _ _ _ _ hp, rfl, rfl, rfl,
            rfl⟩
  · intro transport basic hp
    exact ⟨_, certificates_handler_post_success form now cfg transport basic
      store hp, rfl, rfl⟩

/-- C3: step-2 pairs are trimmed on both fields, pairs with an empty field
after trimming are discarded, and the survivors are persisted and listed in
the notification body in submission order. -/
theorem step2_pair_filtering (ns cs : List String) :
    filterPairs ns cs =
      ((ns.zip cs).map (fun p => (pyStrip p.1, pyStrip p.2))).filter
        (fun p => p.1 != "" && p.2 != "") ∧
    ∀ basic now cfg transport store,
      filterPairs ns cs ≠ [] →
      ∃ r, certificates_handler .post ⟨ns, cs⟩ now cfg transport
          (some basic) store = Except.ok r ∧
        r.store.certificates = store.certificates ++
          certRows store.nextCertificateId store.nextSubmissionId
            (filterPairs ns cs) ∧
        (certRows store.nextCertificateId store.nextSubmissionId
          (filterPairs ns cs)).map
            (fun c => (c.coach_name, c.coach_license)) = filterPairs ns cs ∧
        Event.notifyCall "教練證資料已送出" (buildBody basic (filterPairs ns cs) now)
          ∈ r.events ∧
        bodyLines basic (filterPairs ns cs) now =
          ["🏐 教練證資料已送出", "填寫人：" ++ basic.name, "學校：" ++ basic.school,
           "電話：" ++ basic.phone, "", "教練與證號："] ++
          (filterPairs ns cs).map (fun p => "- " ++ p.1 ++ "：" ++ p.2) ++
          ["", "送出時間：" ++ now] := by
  constructor
  · unfold filterPairs
    induction ns.zip cs with
    | nil => rfl
    | cons p rest ih =>
      by_cases hp : pyStrip p.1 ≠ "" ∧ pyStrip p.2 ≠ ""
      · simp only [List.filterMap_cons, List.map_cons, List.filter_cons,
          hp, if_pos]
        simp [hp.1, hp.2, ih]
      · simp only [List.filterMap_cons, List.map_cons, List.filter_cons,
          hp, if_neg]
        rw [not_and_or] at hp
        rcases hp with hp | hp
        · simp at hp
          simp [hp, ih]
        · simp at hp
          simp [hp, ih]
  · intro basic now cfg transport store hp
    refine ⟨_, certificates_handler_post_success ⟨ns, cs⟩ now cfg transport
      basic store hp, rfl, certRows_map_pair _ _ _, ?_, rfl⟩
    simp

/-- C4: a step-1 POST with an empty-after-trim field stages nothing and
re-renders with the submitted values; with all three fields non-empty after
trimming it stages exactly the trimmed triple, redirects, and those values
appear verbatim in the stored Submission row and the notification body
after a successful step 2. -/
theorem basic_info_step_contract (form : BasicForm) (sess : Session) :
    (pyStrip form.name = "" ∨ pyStrip form.school = "" ∨
        pyStrip form.phone = "" →
      basic_info_post form sess =
        (.formError "請填寫完整基本資料。" form, sess)) ∧
    (pyStrip form.name ≠ "" → pyStrip form.school ≠ "" →
        pyStrip form.phone ≠ "" →
      basic_info_post form sess = (.redirectCertificates,
        some ⟨pyStrip form.name, pyStrip form.school, pyStrip form.phone⟩) ∧
      ∀ cform now cfg transport store,
        filterPairs cform.coach_names cform.coach_licenses ≠ [] →
        ∃ r, certificates_handler .post cform now cfg transport
            (basic_info_post form sess).2 store = Except.ok r ∧
          (⟨store.nextSubmissionId, pyStrip form.name, pyStrip form.school,
            pyStrip form.phone, now⟩ : SubmissionRow) ∈
            r.store.submissions ∧
          ∃ pairs, Event.notifyCall "教練證資料已送出"
              (buildBody ⟨pyStrip form.name, pyStrip form.school,
                pyStrip form.phone⟩ pairs now) ∈ r.events ∧
            ("填寫人：" ++ pyStrip form.name) ∈
              bodyLines ⟨pyStrip form.name, pyStrip form.school,
                pyStrip form.phone⟩ pairs now ∧
            ("學校：" ++ pyStrip form.school) ∈
              bodyLines ⟨pyStrip form.name, pyStrip form.school,
                pyStrip form.phone⟩ pairs now ∧
            ("電話：" ++ pyStrip form.phone) ∈
              bodyLines ⟨pyStrip form.name, pyStrip form.school,
                pyStrip form.phone⟩ pairs now) := by
  constructor
  · intro h
    unfold basic_info_post
    simp only [if_pos h]
  · intro hn hs hp
    have hvalid : basic_info_post form sess = (.redirectCertificates,
        some ⟨pyStrip form.name, pyStrip form.school, pyStrip form.phone⟩) := by
      unfold basic_info_post
      simp [hn, hs, hp]
    refine ⟨hvalid, ?_⟩
    intro cform now cfg transport store hpairs
    rw [hvalid]
    refine ⟨_, certificates_handler_post_success cform now cfg transport
      ⟨pyStrip form.name, pyStrip form.school, pyStrip form.phone⟩ store
      hpairs, ?_, ?_⟩
    · simp [step2Store]
    · refine ⟨filterPairs cform.coach_names cform.coach_licenses, ?_, ?_, ?_, ?_⟩
      · simp
      · simp [bodyLines]
      · simp [bodyLines]
      · simp [bodyLines]

/-- C5: a step-2 POST with zero surviving pairs writes nothing to the
database, calls no notification, leaves the staged contact info in place,
and re-renders the certificate step with the error message and the staged
values. -/
theorem step2_zero_survivors (form : CertForm) (now : String)
    (cfg : EmailSettings) (transport : Except String Unit)
    (basic : BasicInfo) (store : Store)
    (h : filterPairs form.coach_names form.coach_licenses = []) :
    ∃ r, certificates_handler .post form now cfg transport
        (some basic) store = Except.ok r ∧
      r.store = store ∧ r.session = some basic ∧ r.events = [] ∧
      r.log = none ∧
      r.render = .certificatesError "請至少填寫一筆教練姓名與教練證號。" basic := by
  exact ⟨_, certificates_handler_post_empty form now cfg transport basic
    store h, rfl, rfl, rfl, rfl, rfl⟩

/-- C6: the persistence commit happens before the dispatcher runs — in
every event trace of the handler a notification event is preceded by a
commit event — and the committed store and the event trace do not depend on
the transport outcome. -/
theorem step2_commit_before_notify (method : HttpMethod) (form : CertForm)
    (now : String) (cfg : EmailSettings) (transport : Except String Unit)
    (sess : Session) (store : Store) :
    ∃ r, certificates_handler method form now cfg transport sess store =
        Except.ok r ∧
      commitPrecedes false r.events = true ∧
      ∀ transport2, ∃ r2,
        certificates_handler method form now cfg transport2 sess store =
          Except.ok r2 ∧
        r2.store = r.store ∧ r2.events = r.events := by
  cases sess with
  | none =>
    exact ⟨_, certificates_handler_none _ _ _ _ _ _, rfl,
      fun transport2 => ⟨_, certificates_handler_none _ _ _ _ _ _, rfl,
        rfl⟩⟩
  | some basic =>
    cases method with
    | get =>
      exact ⟨_, certificates_handler_get _ _ _ _ _ _, rfl,
        fun transport2 => ⟨_, certificates_handler_get _ _ _ _ _ _, rfl,
          rfl⟩⟩
    | post =>
      by_cases hp : filterPairs form.coach_names form.coach_licenses = []
      · exact ⟨_, certificates_handler_post_empty _ _ _ _ _ _ hp, rfl,
          fun transport2 => ⟨_,
            certificates_handler_post_empty _ _ _ _ _ _ hp, rfl, rfl⟩⟩
      · exact ⟨_, certificates_handler_post_success _ _ _ _ _ _ hp, rfl,
          fun transport2 => ⟨_,
            certificates_handler_post_success _ _ _ _ _ _ hp, rfl, rfl⟩⟩

/-- C7: any request to the certificates step without staged contact info
redirects to the basic-info step, and a successful step-2 submission clears
the staged info, so a later visit with the resulting session redirects. -/
theorem certificates_requires_staged_session (method : HttpMethod)
    (form : CertForm) (now : String) (cfg : EmailSettings)
    (transport : Except String Unit) (store : Store) :
    (certificates_handler method form now cfg transport none store =
      Except.ok ⟨.redirectBasicInfo, store, none, [], none⟩) ∧
    ∀ basic, filterPairs form.coach_names form.coach_licenses ≠ [] →
      ∃ r, certificates_handler .post form now cfg transport
          (some basic) store = Except.ok r ∧
        r.session = none ∧
        ∀ (method2 : HttpMethod) form2 now2 cfg2 transport2 store2,
          certificates_handler method2 form2 now2 cfg2 transport2
            r.session store2 =
            Except.ok ⟨.redirectBasicInfo, store2, none, [], none⟩ := by
  refine ⟨certificates_handler_none _ _ _ _ _ _, ?_⟩
  intro basic hp
  refine ⟨_, certificates_handler_post_success form now cfg transport basic
    store hp, rfl, ?_⟩
  intro method2 form2 now2 cfg2 transport2 store2
  exact certificates_handler_none _ _ _ _ _ _

/-- C8: the admin view answers 403 with no report data for every supplied
key differing from the configured secret under plain string equality
(including a missing key, which reads as the empty string), and never
writes to the store or the session. -/
theorem admin_rejects_mismatched_key (admin_key : String)
    (keyArg : Option String) (store : Store) (sess : Session)
    (h : keyArg.getD "" ≠ admin_key) :
    admin_handler admin_key keyArg store sess = (.forbidden, store, sess) ∧
    ∀ anyKey : Option String,
      (admin_handler admin_key anyKey store sess).2 = (store, sess) := by
  constructor
  · unfold admin_handler
    simp only [if_pos h]
  · intro anyKey
    unfold admin_handler
    by_cases hk : anyKey.getD "" ≠ admin_key
    · simp only [if_pos hk]
    · simp only [if_neg hk]

/-- C10: when the two step-2 field lists have unequal lengths, only the
index-aligned pairs up to the shorter length are considered; the unmatched
tail is silently ignored by both the filtering and the whole handler. -/
theorem step2_truncates_unmatched_fields (ns cs extra : List String)
    (h : ns.length = cs.length) :
    filterPairs (ns ++ extra) cs = filterPairs ns cs ∧
    filterPairs ns (cs ++ extra) = filterPairs ns cs ∧
    ∀ (method : HttpMethod) now cfg transport sess store,
      certificates_handler method ⟨ns ++ extra, cs⟩ now cfg transport sess
          store =
        certificates_handler method ⟨ns, cs⟩ now cfg transport sess store ∧
      certificates_handler method ⟨ns, cs ++ extra⟩ now cfg transport sess
          store =
        certificates_handler method ⟨ns, cs⟩ now cfg transport sess store := by
  have hzip1 : (ns ++ extra).zip cs = ns.zip cs := by
    conv_lhs => rw [← List.append_nil cs]
    rw [List.zip_append h]
    simp
  have hzip2 : ns.zip (cs ++ extra) = ns.zip cs := by
    conv_lhs => rw [← List.append_nil ns]
    rw [List.zip_append h]
    simp
  have hf1 : filterPairs (ns ++ extra) cs = filterPairs ns cs := by
    unfold filterPairs
    rw [hzip1]
  have hf2 : filterPairs ns (cs ++ extra) = filterPairs ns cs := by
    unfold filterPairs
    rw [hzip2]
  refine ⟨hf1, hf2, ?_⟩
  intro method now cfg transport sess store
  exact ⟨certificates_handler_congr _ _ hf1 method now cfg transport sess
    store, certificates_handler_congr _ _ hf2 method now cfg transport sess
    store⟩

/-! Witnesses -/

/-- Witness for C1 at a concrete run: two surviving pairs out of three
submitted, empty store. -/
theorem step2_atomic_persistence_witness :
    filterPairs ["Amy", " ", "Ben"] ["A12345", "x", "B67890"] ≠ [] ∧
    ∃ r, certificates_handler .post ⟨["Amy", " ", "Ben"], ["A12345", "x", "B67890"]⟩
        "2024-01-01 10:00:00" ⟨"smtp.gmail.com", 587, "", "", ""⟩
        (Except.ok ()) (some ⟨"Amy", "Central High", "0912345678"⟩)
        ⟨[], [], 1, 1⟩ = Except.ok r ∧
      r.store.submissions =
        [⟨1, "Amy", "Central High", "0912345678", "2024-01-01 10:00:00"⟩] ∧
      r.store.certificates = [⟨1, 1, "Amy", "A12345"⟩, ⟨2, 1, "Ben", "B67890"⟩] ∧
      (Db.stage ⟨⟨[], [], 1, 1⟩, []⟩
        ((step2Ops ⟨"Amy", "Central High", "0912345678"⟩
          (filterPairs ["Amy", " ", "Ben"] ["A12345", "x", "B67890"])
          "2024-01-01 10:00:00" 1).take 1)).committed = ⟨[], [], 1, 1⟩ := by
  have h : filterPairs ["Amy", " ", "Ben"] ["A12345", "x", "B67890"] ≠ [] := by
    decide
  obtain ⟨r, hr, hsub, hcert, _, _, _, hcrash⟩ :=
    step2_atomic_persistence ⟨["Amy", " ", "Ben"], ["A12345", "x", "B67890"]⟩
      "2024-01-01 10:00:00" ⟨"smtp.gmail.com", 587, "", "", ""⟩
      (Except.ok ()) ⟨"Amy", "Central High", "0912345678"⟩ ⟨[], [], 1, 1⟩ h
  refine ⟨h, r, hr, ?_, ?_, hcrash 1⟩
  · rw [hsub]; decide
  · rw [hcert]; decide

/-- Witness for C2: failing transport, step-2 POST on a valid session. -/
theorem notify_never_raises_witness :
    (∃ log, send_email_notify ⟨"smtp.gmail.com", 587, "u", "p", "t"⟩
      (Except.error "boom") "s" "b" = Except.ok log) ∧
    filterPairs ["Amy"] ["A12345"] ≠ [] ∧
    ∃ r, certificates_handler .post ⟨["Amy"], ["A12345"]⟩ "2024-01-01 10:00:00"
        ⟨"smtp.gmail.com", 587, "u", "p", "t"⟩ (Except.error "boom")
        (some ⟨"Amy", "Central High", "0912345678"⟩) ⟨[], [], 1, 1⟩ =
        Except.ok r ∧
      r.store.submissions =
        [⟨1, "Amy", "Central High", "0912345678", "2024-01-01 10:00:00"⟩] := by
  have H := notify_never_raises ⟨"smtp.gmail.com", 587, "u", "p", "t"⟩ "s" "b"
    .post ⟨["Amy"], ["A12345"]⟩ "2024-01-01 10:00:00"
    (some ⟨"Amy", "Central High", "0912345678"⟩) ⟨[], [], 1, 1⟩
  have hp : filterPairs ["Amy"] ["A12345"] ≠ [] := by decide
  obtain ⟨r, hr, hsub, _⟩ := H.2.2 (Except.error "boom")
    ⟨"Amy", "Central High", "0912345678"⟩ hp
  exact ⟨H.1 (Except.error "boom"), hp, r, hr, by rw [hsub]; decide⟩

/-- Witness for C3: trimming, discarding and order on a concrete list. -/
theorem step2_pair_filtering_witness :
    filterPairs [" Amy ", "", "Ben"] ["A12345", "x", " B67890 "] =
      (([" Amy ", "", "Ben"].zip ["A12345", "x", " B67890 "]).map
        (fun p => (pyStrip p.1, pyStrip p.2))).filter
        (fun p => p.1 != "" && p.2 != "") ∧
    filterPairs [" Amy ", "", "Ben"] ["A12345", "x", " B67890 "] =
      [("Amy", "A12345"), ("Ben", "B67890")] ∧
    ∃ r, certificates_handler .post ⟨[" Amy ", "", "Ben"], ["A12345", "x", " B67890 "]⟩
        "2024-01-01 10:00:00" ⟨"smtp.gmail.com", 587, "", "", ""⟩
        (Except.ok ()) (some ⟨"Amy", "Central High", "0912345678"⟩)
        ⟨[], [], 1, 1⟩ = Except.ok r ∧
      r.store.certificates =
        [⟨1, 1, "Amy", "A12345"⟩, ⟨2, 1, "Ben", "B67890"⟩] := by
  have H := step2_pair_filtering [" Amy ", "", "Ben"] ["A12345", "x", " B67890 "]
  obtain ⟨r, hr, hcert, _⟩ := H.2 ⟨"Amy", "Central High", "0912345678"⟩
    "2024-01-01 10:00:00" ⟨"smtp.gmail.com", 587, "", "", ""⟩
    (Except.ok ()) ⟨[], [], 1, 1⟩ (by decide)
  exact ⟨H.1, by decide, r, hr, by rw [hcert]; decide⟩

/-- Witness for C4: a rejected step-1 POST (whitespace-only school) and an
accepted one whose trimmed values reach the store and the body. -/
theorem basic_info_step_contract_witness :
    basic_info_post ⟨" Amy ", "  ", "0912345678"⟩ none =
      (.formError "請填寫完整基本資料。" ⟨" Amy ", "  ", "0912345678"⟩, none) ∧
    basic_info_post ⟨" Amy ", " Central High ", " 0912345678 "⟩ none =
      (.redirectCertificates,
        some ⟨"Amy", "Central High", "0912345678"⟩) ∧
    ∃ r, certificates_handler .post ⟨["Amy"], ["A12345"]⟩ "2024-01-01 10:00:00"
        ⟨"smtp.gmail.com", 587, "", "", ""⟩ (Except.ok ())
        (basic_info_post ⟨" Amy ", " Central High ", " 0912345678 "⟩ none).2
        ⟨[], [], 1, 1⟩ = Except.ok r ∧
      (⟨1, "Amy", "Central High", "0912345678", "2024-01-01 10:00:00"⟩ :
        SubmissionRow) ∈ r.store.submissions := by
  have H1 := (basic_info_step_contract ⟨" Amy ", "  ", "0912345678"⟩ none).1
    (Or.inr (Or.inl (by decide)))
  have H2 := (basic_info_step_contract
    ⟨" Amy ", " Central High ", " 0912345678 "⟩ none).2
    (by decide) (by decide) (by decide)
  obtain ⟨r, hr, hmem, _⟩ := H2.2 ⟨["Amy"], ["A12345"]⟩ "2024-01-01 10:00:00"
    ⟨"smtp.gmail.com", 587, "", "", ""⟩ (Except.ok ()) ⟨[], [], 1, 1⟩
    (by decide)
  exact ⟨H1, H2.1, r, hr, hmem⟩

/-- Witness for C5: every submitted pair has an empty field after trim. -/
theorem step2_zero_survivors_witness :
    filterPairs ["", " Amy "] ["A12345", "  "] = [] ∧
    ∃ r, certificates_handler .post ⟨["", " Amy "], ["A12345", "  "]⟩
        "2024-01-01 10:00:00" ⟨"smtp.gmail.com", 587, "", "", ""⟩
        (Except.ok ()) (some ⟨"Amy", "Central High", "0912345678"⟩)
        ⟨[], [], 1, 1⟩ = Except.ok r ∧
      r.store = ⟨[], [], 1, 1⟩ ∧
      r.session = some ⟨"Amy", "Central High", "0912345678"⟩ ∧
      r.events = [] := by
  have h : filterPairs ["", " Amy "] ["A12345", "  "] = [] := by decide
  obtain ⟨r, hr, hstore, hsess, hev, _, _⟩ :=
    step2_zero_survivors ⟨["", " Amy "], ["A12345", "  "]⟩
      "2024-01-01 10:00:00" ⟨"smtp.gmail.com", 587, "", "", ""⟩
      (Except.ok ()) ⟨"Amy", "Central High", "0912345678"⟩ ⟨[], [], 1, 1⟩ h
  exact ⟨h, r, hr, hstore, hsess, hev⟩

/-- Witness for C7: a missing-session GET redirects, and a successful POST
clears the session so the next request redirects. -/
theorem certificates_requires_staged_session_witness :
    certificates_handler .get ⟨[], []⟩ "2024-01-01 10:00:00"
      ⟨"smtp.gmail.com", 587, "", "", ""⟩ (Except.ok ()) none ⟨[], [], 1, 1⟩ =
      Except.ok ⟨.redirectBasicInfo, ⟨[], [], 1, 1⟩, none, [], none⟩ ∧
    ∃ r, certificates_handler .post ⟨["Amy"], ["A12345"]⟩ "2024-01-01 10:00:00"
        ⟨"smtp.gmail.com", 587, "", "", ""⟩ (Except.ok ())
        (some ⟨"Amy", "Central High", "0912345678"⟩) ⟨[], [], 1, 1⟩ =
        Except.ok r ∧
      r.session = none ∧
      certificates_handler .get ⟨[], []⟩ "2024-01-02 10:00:00"
        ⟨"smtp.gmail.com", 587, "", "", ""⟩ (Except.ok ()) r.session
        r.store =
        Except.ok ⟨.redirectBasicInfo, r.store, none, [], none⟩ := by
  have H := certificates_requires_staged_session .get ⟨[], []⟩
    "2024-01-01 10:00:00" ⟨"smtp.gmail.com", 587, "", "", ""⟩ (Except.ok ())
    ⟨[], [], 1, 1⟩
  have H2 := (certificates_requires_staged_session .post
    ⟨["Amy"], ["A12345"]⟩ "2024-01-01 10:00:00"
    ⟨"smtp.gmail.com", 587, "", "", ""⟩ (Except.ok ()) ⟨[], [], 1, 1⟩).2
    ⟨"Amy", "Central High", "0912345678"⟩ (by decide)
  obtain ⟨r, hr, hsess, hnext⟩ := H2
  exact ⟨H.1, r, hr, hsess,
    hsess ▸ hnext .get ⟨[], []⟩ "2024-01-02 10:00:00"
      ⟨"smtp.gmail.com", 587, "", "", ""⟩ (Except.ok ()) r.store⟩

/-- Witness for C8: empty key, missing key, and the correct key with a
trailing blank are all rejected without touching store or session. -/
theorem admin_rejects_mismatched_key_witness :
    admin_handler "changeme" (some "") ⟨[], [], 1, 1⟩ none =
      (.forbidden, ⟨[], [], 1, 1⟩, none) ∧
    admin_handler "changeme" none ⟨[], [], 1, 1⟩ none =
      (.forbidden, ⟨[], [], 1, 1⟩, none) ∧
    admin_handler "changeme" (some "changeme ") ⟨[], [], 1, 1⟩ none =
      (.forbidden, ⟨[], [], 1, 1⟩, none) ∧
    (admin_handler "changeme" (some "changeme") ⟨[], [], 1, 1⟩ none).2 =
      (⟨[], [], 1, 1⟩, none) := by
  refine ⟨(admin_rejects_mismatched_key "changeme" (some "") _ _
      (by decide)).1,
    (admin_rejects_mismatched_key "changeme" none _ _ (by decide)).1,
    (admin_rejects_mismatched_key "changeme" (some "changeme ") _ _
      (by decide)).1,
    (admin_rejects_mismatched_key "changeme" (some "") _ _ (by decide)).2
      (some "changeme")⟩

/-- Witness for C10: a trailing unmatched coach name is ignored. -/
theorem step2_truncates_unmatched_fields_witness :
    filterPairs ["Amy", "Ben"] ["A12345"] = filterPairs ["Amy"] ["A12345"] ∧
    filterPairs ["Amy"] ["A12345", "B67890"] =
      filterPairs ["Amy"] ["A12345"] ∧
    certificates_handler .post ⟨["Amy", "Ben"], ["A12345"]⟩
        "2024-01-01 10:00:00" ⟨"smtp.gmail.com", 587, "", "", ""⟩
        (Except.ok ()) (some ⟨"Amy", "Central High", "0912345678"⟩)
        ⟨[], [], 1, 1⟩ =
      certificates_handler .post ⟨["Amy"], ["A12345"]⟩
        "2024-01-01 10:00:00" ⟨"smtp.gmail.com", 587, "", "", ""⟩
        (Except.ok ()) (some ⟨"Amy", "Central High", "0912345678"⟩)
        ⟨[], [], 1, 1⟩ := by
  have H := step2_truncates_unmatched_fields ["Amy"] ["A12345"] ["Ben"] rfl
  have H2 := step2_truncates_unmatched_fields ["Amy"] ["A12345"] ["B67890"]
    rfl
  exact ⟨H.1, H2.2.1,
    (H.2.2 .post "2024-01-01 10:00:00" ⟨"smtp.gmail.com", 587, "", "", ""⟩
      (Except.ok ()) (some ⟨"Amy", "Central High", "0912345678"⟩)
      ⟨[], [], 1, 1⟩).1⟩

/-- C9: with the correct key the admin view reports totals equal to the
true row counts, lists the submissions newest-first by creation timestamp
with each one's true certificate count, and lists every submission's
certificates in insertion order. -/
theorem admin_report_correct (admin_key : String) (store : Store)
    (sess : Session) (hwf : store.wf) :
    ∃ rep, admin_handler admin_key (some admin_key) store sess =
        (.report admin_key rep, store, sess) ∧
      rep.total_submissions = store.submissions.length ∧
      rep.total_certificates = store.certificates.length ∧
      rep.submissions.Pairwise (fun a b => b.created_at ≤ a.created_at) ∧
      rep.submissions.Perm (store.submissions.map (mkAdminRow store)) ∧
      (∀ a ∈ rep.submissions, a.coach_count = (certsOf store a.id).length) ∧
      ∀ s ∈ store.submissions,
        detailsGet rep.details s.id =
          (certsOf store s.id).map
            fun c => (c.coach_name, c.coach_license) := by
  have hh : admin_handler admin_key (some admin_key) store sess =
      (.report admin_key
        ⟨(List.insertionSort subDesc store.submissions).map
            (mkAdminRow store),
          buildDetails (joinRows store),
          ((List.insertionSort subDesc store.submissions).map
            (mkAdminRow store)).length,
          store.certificates.length⟩, store, sess) := by
    simp [admin_handler]
  refine ⟨_, hh, by simp, rfl, ?_, ?_, ?_, ?_⟩
  · exact List.Pairwise.map (mkAdminRow store) (fun a b h => h)
      (List.sorted_insertionSort subDesc store.submissions)
  · exact List.Perm.map (mkAdminRow store)
      (List.perm_insertionSort subDesc store.submissions)
  · intro a ha
    simp only [List.mem_map] at ha
    obtain ⟨s, _, rfl⟩ := ha
    rfl
  · intro s hs
    show detailsGet (buildDetails (joinRows store)) s.id = _
    have hdet : buildDetails (joinRows store) =
        (store.submissions.filter
          fun s' => !(certsOf store s'.id).isEmpty).map
          (fun s' => (s'.id, (certsOf store s'.id).map
            fun c => (c.coach_name, c.coach_license))) := by
      unfold buildDetails
      rw [joinRows_eq store hwf, detStep_flatMap store store.submissions []
        (by intro s' _; simp) hwf.1]
      simp
    rw [hdet]
    exact detailsGet_mapped store store.submissions hwf.1 s hs

/-- Witness for C9 on a concrete two-submission, three-certificate store. -/
theorem admin_report_correct_witness :
    (Store.wf ⟨[⟨1, "Amy", "Central High", "0912345678", "2024-01-01 10:00:00"⟩,
        ⟨2, "Cara", "North High", "0987654321", "2024-01-02 09:00:00"⟩],
      [⟨1, 1, "Amy", "A1"⟩, ⟨2, 1, "Ben", "B2"⟩, ⟨3, 2, "Cara", "C3"⟩],
      3, 4⟩) ∧
    ∃ rep, admin_handler "changeme" (some "changeme")
        ⟨[⟨1, "Amy", "Central High", "0912345678", "2024-01-01 10:00:00"⟩,
          ⟨2, "Cara", "North High", "0987654321", "2024-01-02 09:00:00"⟩],
         [⟨1, 1, "Amy", "A1"⟩, ⟨2, 1, "Ben", "B2"⟩, ⟨3, 2, "Cara", "C3"⟩],
         3, 4⟩ none =
        (.report "changeme" rep,
          ⟨[⟨1, "Amy", "Central High", "0912345678", "2024-01-01 10:00:00"⟩,
            ⟨2, "Cara", "North High", "0987654321", "2024-01-02 09:00:00"⟩],
           [⟨1, 1, "Amy", "A1"⟩, ⟨2, 1, "Ben", "B2"⟩, ⟨3, 2, "Cara", "C3"⟩],
           3, 4⟩, none) ∧
      rep.total_submissions = 2 ∧
      rep.total_certificates = 3 ∧
      detailsGet rep.details 1 = [("Amy", "A1"), ("Ben", "B2")] ∧
      detailsGet rep.details 2 = [("Cara", "C3")] := by
  have hwf : Store.wf ⟨[⟨1, "Amy", "Central High", "0912345678",
        "2024-01-01 10:00:00"⟩,
      ⟨2, "Cara", "North High", "0987654321", "2024-01-02 09:00:00"⟩],
      [⟨1, 1, "Amy", "A1"⟩, ⟨2, 1, "Ben", "B2"⟩, ⟨3, 2, "Cara", "C3"⟩],
      3, 4⟩ := by
    refine ⟨?_, ?_, ?_, ?_⟩ <;> decide
  obtain ⟨rep, hrep, htots, htotc, _, _, _, hdet⟩ :=
    admin_report_correct "changeme"
      ⟨[⟨1, "Amy", "Central High", "0912345678", "2024-01-01 10:00:00"⟩,
        ⟨2, "Cara", "North High", "0987654321", "2024-01-02 09:00:00"⟩],
       [⟨1, 1, "Amy", "A1"⟩, ⟨2, 1, "Ben", "B2"⟩, ⟨3, 2, "Cara", "C3"⟩],
       3, 4⟩ none hwf
  refine ⟨hwf, rep, hrep, htots, htotc, ?_, ?_⟩
  · have h := hdet ⟨1, "Amy", "Central High", "0912345678",
      "2024-01-01 10:00:00"⟩ (by simp)
    rw [h]
    decide
  · have h := hdet ⟨2, "Cara", "North High", "0987654321",
      "2024-01-02 09:00:00"⟩ (by simp)
    rw [h]
    decide

end VolleyballApp
